import Mathlib

/-!
Shallow embedding of src/efpsserverbot.py (EFPSServerBot), the data
aggregation and bounded-layout rendering pipeline of the bot.

Modelling conventions:
* Python strings are Lean `String`; Python `len` is `String.length` (both
  count Unicode code points). Python slicing `s[:n]` and `s[-n:]` are
  `strTake` and `strTakeRight` below.
* A JSON object field that may be absent is an `Option`; Python truthiness
  of such an optional string value (`if p.get(key):`) is `truthy` below,
  meaning present and non-empty. Numeric JSON values, which the bot only
  ever interpolates into f-strings, are modelled by their rendered decimal
  string.
* A Python dict is an association list over which assignment prepends and
  lookup returns the most recent binding; this is observationally the
  dict behaviour for the reads this program performs. A Python set is a
  duplicate-free list (`List.dedup`).
* The network is an oracle `net : List String -> Option (List (String × String))`
  sending one batch of ids to the decoded response pairs
  (steamid, personaname); `none` models an exception, a timeout or a
  non-200 status. `resolve_steam_names` additionally returns the list of
  requests it issued, so that claims about which lookups happen are
  statable.
* `discord.utils.utcnow()` becomes an explicit `now : Nat` input; a
  Discord embed is a record of title, description, timestamp, fields and
  footer text.
-/

namespace EFPS

/-- Python slicing `s[:n]`: the first `n` code points of `s`. -/
def strTake (s : String) (n : Nat) : String := String.mk (s.data.take n)

/-- Python slicing `s[-n:]`: the last `n` code points of `s` (all of `s`
when it is shorter than `n`). -/
def strTakeRight (s : String) (n : Nat) : String :=
  String.mk (s.data.drop (s.data.length - n))

/-- Python truthiness of an optional string value: present and non-empty. -/
def truthy : Option String → Bool
  | some s => s ≠ ""
  | none => false

/-- Python `a or b` on optional values: `a` when truthy, otherwise `b`. -/
def pyOr (a b : Option String) : Option String := if truthy a then a else b

/-- One loosely structured player record: every field the source ever reads,
each optional. `src/efpsserverbot.py` reads name variants, steam ids, the
numeric user id, stats and the weapon. -/
structure PlayerRecord where
  name : Option String := none
  playerName : Option String := none
  nick : Option String := none
  username : Option String := none
  displayName : Option String := none
  persona : Option String := none
  personaname : Option String := none
  steamId : Option String := none
  steam_id : Option String := none
  userId : Option String := none
  teamIdx : Option String := none
  health : Option String := none
  armor : Option String := none
  kills : Option String := none
  deaths : Option String := none
  ping : Option String := none
  weapon : Option String := none
  deriving DecidableEq

/-- A Python dict from steam id to persona name, as an association list. -/
abbrev Dict := List (String × String)

/-- Dict lookup: the most recently inserted binding for `k`. -/
def dictGet : Dict → String → Option String
  | [], _ => none
  | (k0, v0) :: rest, k => if k = k0 then some v0 else dictGet rest k

/-- The fixed ordered list of local name-like fields tried first by
`choose_player_name` (source line 68). -/
def localNameFields (p : PlayerRecord) : List (Option String) :=
  [p.name, p.playerName, p.nick, p.username, p.displayName, p.persona,
    p.personaname]

/-- The for-loop of `choose_player_name`: first truthy field, if any. -/
def firstTruthy : List (Option String) → Option String
  | [] => none
  | o :: rest => if truthy o then o else firstTruthy rest

/-- `choose_player_name` (source lines 66-77). The local variable
`steamid = str(p.get("steamId") or p.get("steam_id") or "")` is inlined as
`(pyOr p.steamId p.steam_id).getD ""`. -/
def choose_player_name (p : PlayerRecord) (steam_map : Dict) : String :=
  match firstTruthy (localNameFields p) with
  | some s => s
  | none =>
    if (pyOr p.steamId p.steam_id).getD "" ≠ "" then
      match dictGet steam_map ((pyOr p.steamId p.steam_id).getD "") with
      | some n => n
      | none => "steam:" ++ strTakeRight ((pyOr p.steamId p.steam_id).getD "") 8
    else if p.userId.isSome then "#" ++ p.userId.getD ""
    else "Unknown"

/-- The external identifier a record carries, when truthy: the expression
`p.get("steamId") or p.get("steam_id")` guarded by its own truthiness,
shared by the set comprehension in the command (source lines 153-157) and
by the fallback chain of `choose_player_name`. -/
def record_steam_id (p : PlayerRecord) : Option String :=
  if truthy (pyOr p.steamId p.steam_id) then pyOr p.steamId p.steam_id
  else none

/-- A second rendering of the name-selection policy, following the five
numbered precedence rules of the specification word for word (first
present non-empty local field; else the mapped name of a carried
identifier; else `steam:` plus the identifier's last 8 characters; else
`#` plus the numeric in-game id; else `Unknown`), to be compared with
`choose_player_name` as embedded from the source. -/
def selectName_spec (p : PlayerRecord) (names : Dict) : String :=
  match firstTruthy (localNameFields p) with
  | some s => s
  | none =>
    match record_steam_id p with
    | some sid =>
      match dictGet names sid with
      | some n => n
      | none => "steam:" ++ strTakeRight sid 8
    | none =>
      if p.userId.isSome then "#" ++ p.userId.getD ""
      else "Unknown"

/-- The fixed team-code table of `compact_player_line` (source line 88). -/
def TEAM_MAP : Dict :=
  [("0", "Free For All"), ("1", "Free For All"), ("2", "Rebel"),
    ("3", "Combine")]

/-- `compact_player_line` (source lines 79-90). -/
def compact_player_line (p : PlayerRecord) (pname : String) : String :=
  "**" ++ pname ++ "** — " ++
    ((dictGet TEAM_MAP (p.teamIdx.getD "n/a")).getD (p.teamIdx.getD "n/a")) ++
    " — " ++ p.health.getD "n/a" ++ "HP/" ++ p.armor.getD "n/a" ++ "AR — " ++
    p.kills.getD "n/a" ++ "K/" ++ p.deaths.getD "n/a" ++ "D — " ++
    p.ping.getD "n/a" ++ "ms — " ++
    (if truthy p.weapon then p.weapon.getD "" else "none")

/-- The `serverInfo` sub-object of one fetched entry. -/
structure ServerInfo where
  name : Option String := none
  version : Option String := none
  deriving DecidableEq

/-- One element of the fetched JSON array. -/
structure ServerEntry where
  serverInfo : Option ServerInfo := none
  players : Option (List PlayerRecord) := none
  deriving DecidableEq

/-- `info.get("name", "unnamed")` with `info = entry.get("serverInfo", {})`. -/
def serverName (e : ServerEntry) : String :=
  (e.serverInfo.bind ServerInfo.name).getD "unnamed"

/-- `info.get("version", "unknown")`. -/
def serverVersion (e : ServerEntry) : String :=
  (e.serverInfo.bind ServerInfo.version).getD "unknown"

/-- `entry.get("players") or []`. -/
def serverPlayers (e : ServerEntry) : List PlayerRecord := e.players.getD []

/-- Constant from source line 23. -/
def FIELD_VALUE_MAX : Nat := 1024

/-- Constant from source line 24. -/
def EMBED_TOTAL_MAX : Nat := 6000

/-- Embed title (source line 94). -/
def EMBED_TITLE : String := "SF Servers"

/-- Embed description (source line 95). -/
def EMBED_DESCRIPTION : String := "Live stats for SF HL2DM servers."

/-- The first line of one server block. -/
def summaryLine (e : ServerEntry) : String :=
  "Players: " ++ toString (serverPlayers e).length ++ " • version `" ++
    serverVersion e ++ "`"

/-- `"\n".join(lines)` for a server with players (source lines 116-122). -/
def serverJoined (e : ServerEntry) (steam_map : Dict) : String :=
  String.intercalate "\n"
    (summaryLine e ::
      (serverPlayers e).map
        (fun p => compact_player_line p (choose_player_name p steam_map)))

/-- The field value built for one server entry (source lines 112-125):
an uncapped summary line when there are no players, otherwise the joined
player lines truncated at `FIELD_VALUE_MAX`. -/
def serverFieldValue (e : ServerEntry) (steam_map : Dict) : String :=
  if serverPlayers e = [] then
    "Players: 0 • version `" ++ serverVersion e ++ "`"
  else if FIELD_VALUE_MAX < (serverJoined e steam_map).length then
    strTake (serverJoined e steam_map) (FIELD_VALUE_MAX - 30) ++
      "\n... (truncated)"
  else serverJoined e steam_map

/-- One embed field: a stored header and body. -/
structure EmbedField where
  name : String
  value : String
  deriving DecidableEq

/-- The embed as the source observes it: title, description, timestamp,
fields in order, footer text. -/
structure Embed where
  title : String
  description : String
  timestamp : Nat
  fields : List EmbedField
  footer : String
  deriving DecidableEq

/-- State of the packing loop: fields so far, `total_chars`,
`servers_truncated`. -/
abbrev PackState := List EmbedField × Nat × Nat

/-- One iteration of the packing loop (source lines 107-132): skip and
count the block when `total_chars + len(name) + len(field_value) + 10`
would exceed `EMBED_TOTAL_MAX`, otherwise add the field with its name cut
to 256 characters while adding the full name length to the running total. -/
def packStep (steam_map : Dict) (st : PackState) (e : ServerEntry) : PackState :=
  if EMBED_TOTAL_MAX <
      st.2.1 + (serverName e).length + (serverFieldValue e steam_map).length + 10 then
    (st.1, st.2.1, st.2.2 + 1)
  else
    (st.1 ++ [⟨strTake (serverName e) 256, serverFieldValue e steam_map⟩],
      st.2.1 + (serverName e).length + (serverFieldValue e steam_map).length,
      st.2.2)

/-- `total_chars` before the loop: title plus description length. -/
def packInit : Nat := EMBED_TITLE.length + EMBED_DESCRIPTION.length

/-- The whole packing loop over the fetched entries in order. -/
def packAll (steam_map : Dict) (all_data : List ServerEntry) : PackState :=
  all_data.foldl (packStep steam_map) ([], packInit, 0)

/-- The synthetic notice field (source lines 134-139). -/
def noticeField (n : Nat) : EmbedField :=
  ⟨"Notice", "Truncated: " ++ toString n ++ " server(s) omitted."⟩

/-- `make_one_big_embed` (source lines 92-142): pack all entries, append
the notice field when any server was omitted, set the footer from the
input length and the final number of fields. -/
def make_one_big_embed (now : Nat) (all_data : List ServerEntry)
    (steam_map : Dict) : Embed :=
  ⟨EMBED_TITLE, EMBED_DESCRIPTION, now,
    (packAll steam_map all_data).1 ++
      (if (packAll steam_map all_data).2.2 ≠ 0 then
        [noticeField (packAll steam_map all_data).2.2]
      else []),
    "Server list • " ++ toString all_data.length ++ " total (showing " ++
      toString
        ((packAll steam_map all_data).1 ++
          (if (packAll steam_map all_data).2.2 ≠ 0 then
            [noticeField (packAll steam_map all_data).2.2]
          else [])).length ++ ")."⟩

/-- The per-field size sum of the emitted embed, as the command computes it. -/
def emittedSum (fields : List EmbedField) : Nat :=
  (fields.map (fun f => f.name.length + f.value.length)).sum

/-- `approx_len` (source line 164): title plus description plus the sum of
stored field name and value lengths. -/
def approxLen (e : Embed) : Nat :=
  e.title.length + e.description.length + emittedSum e.fields

/-- Fuel-driven chunking helper; the fuel starts at the list length and is
never exhausted first because each step consumes at least one element. -/
def chunksGo : Nat → List String → List (List String)
  | _, [] => []
  | 0, _ :: _ => []
  | fuel + 1, x :: xs => (x :: xs).take 100 :: chunksGo fuel ((x :: xs).drop 100)

/-- `ids[i:i + CHUNK]` for `i = 0, CHUNK, ...` with `CHUNK = 100`
(source lines 43-46). -/
def chunksOf100 (l : List String) : List (List String) := chunksGo l.length l

/-- `mapping[sid] = name` guarded by `if sid and name` (source lines 57-61). -/
def insPair (d : Dict) (pr : String × String) : Dict :=
  if pr.1 ≠ "" ∧ pr.2 ≠ "" then (pr.1, pr.2) :: d else d

/-- One loop iteration of `resolve_steam_names` (source lines 45-63): issue
the batch request, skip the batch on failure, otherwise merge its truthy
(steamid, personaname) pairs. The request is recorded either way. -/
def procChunk (net : List String → Option (List (String × String)))
    (acc : Dict × List (List String)) (c : List String) :
    Dict × List (List String) :=
  match net c with
  | none => (acc.1, acc.2 ++ [c])
  | some resp => (resp.foldl insPair acc.1, acc.2 ++ [c])

/-- `resolve_steam_names` (source lines 36-64), returning the mapping and
the list of batch requests it issued. -/
def resolve_steam_names (key : Option String)
    (net : List String → Option (List (String × String)))
    (ids : List String) : Dict × List (List String) :=
  if truthy key = false ∨ ids = [] then ([], [])
  else (chunksOf100 ids).foldl (procChunk net) ([], [])

/-- The set comprehension of the command (source lines 153-157), with the
Python set modelled as a duplicate-free list. -/
def collect_steam_ids (data : List ServerEntry) : List String :=
  ((data.map (fun e => (serverPlayers e).filterMap record_steam_id)).flatten).dedup

/-- `steam_map = await resolve_steam_names(steam_ids) if steam_ids else {}`. -/
def steamMapOf (key : Option String)
    (net : List String → Option (List (String × String)))
    (data : List ServerEntry) : Dict :=
  if collect_steam_ids data = [] then []
  else (resolve_steam_names key net (collect_steam_ids data)).1

/-- The single reply of the command: no data, the too-large fallback, or
the embed itself. -/
inductive Reply where
  | noData : Reply
  | tooLarge : Reply
  | sent : Embed → Reply
  deriving DecidableEq

/-- The `/servers` command body after the fetch (source lines 146-169):
short-circuit on empty data, build the embed, reject it when `approx_len`
exceeds `EMBED_TOTAL_MAX`, otherwise send it. -/
def servers_command (now : Nat) (key : Option String)
    (net : List String → Option (List (String × String)))
    (fetched : List ServerEntry) : Reply :=
  if fetched = [] then Reply.noData
  else if EMBED_TOTAL_MAX <
      approxLen (make_one_big_embed now fetched (steamMapOf key net fetched)) then
    Reply.tooLarge
  else Reply.sent (make_one_big_embed now fetched (steamMapOf key net fetched))

/-- The size of the document a reply carries; the fallback replies carry
none. -/
def sentSize : Reply → Nat
  | Reply.sent e => approxLen e
  | _ => 0

/-- A network oracle on which every batch fails. -/
def netNone : List String → Option (List (String × String)) := fun _ => none

/-- A player record with every field absent. -/
def emptyRecord : PlayerRecord :=
  ⟨none, none, none, none, none, none, none, none, none, none, none, none,
    none, none, none, none, none⟩

/-- A server with zero players and a 1200-character version string. -/
def longVersionEntry : ServerEntry :=
  ⟨some ⟨some "srv", some (String.mk (List.replicate 1200 'v'))⟩, some []⟩

/-- A server with one fully absent player record. -/
def onePlayerEntry : ServerEntry :=
  ⟨some ⟨some "srv", some "1.0"⟩, some [emptyRecord]⟩

/-- A player whose local name field holds 1100 characters. -/
def bigNamePlayer : PlayerRecord :=
  ⟨some (String.mk (List.replicate 1100 'a')), none, none, none, none, none,
    none, none, none, none, none, none, none, none, none, none, none⟩

/-- A server whose joined player lines exceed the per-block cap. -/
def bigPlayerEntry : ServerEntry :=
  ⟨some ⟨some "srv", some "1.0"⟩, some [bigNamePlayer]⟩

/-- A zero-player server whose block has name `unnamed` (7) and value
23 + 961 = 984, so each included copy adds 991 to the running total. -/
def mediumEntry : ServerEntry :=
  ⟨some ⟨none, some (String.mk (List.replicate 961 'v'))⟩, none⟩

/-- A zero-player server with default name and version (value length 30). -/
def tinyServerEntry : ServerEntry := ⟨some ⟨none, none⟩, none⟩

/-- Input on which six blocks are included, reaching running total 5988,
the small seventh block is skipped, and the appended notice then lifts the
emitted document to 6025, over the 6000 cap. -/
def overflowData : List ServerEntry :=
  [mediumEntry, mediumEntry, mediumEntry, mediumEntry, mediumEntry,
    mediumEntry, tinyServerEntry]

/-- Input on which six server blocks are included and one is skipped, so
the footer counts the notice field among the shown blocks. -/
def footerData : List ServerEntry :=
  [mediumEntry, mediumEntry, mediumEntry, mediumEntry, mediumEntry,
    mediumEntry, mediumEntry]

/-- A player carrying steam id `aaaa`. -/
def dupIdPlayer : PlayerRecord :=
  ⟨none, none, none, none, none, none, none, some "aaaa", none, none, none,
    none, none, none, none, none, none⟩

/-- A player carrying steam id `b` through the `steam_id` spelling. -/
def otherIdPlayer : PlayerRecord :=
  ⟨none, none, none, none, none, none, none, none, some "b", none, none,
    none, none, none, none, none, none⟩

/-- One server whose three players carry the identifier set with a
duplicate. -/
def dedupData : List ServerEntry :=
  [⟨none, some [dupIdPlayer, dupIdPlayer, otherIdPlayer]⟩]

/-! ### Helper lemmas -/

theorem strLen_append (a b : String) : (a ++ b).length = a.length + b.length :=
  String.length_append a b

theorem strTake_length (s : String) (n : Nat) :
    (strTake s n).length = min n s.length := by
  cases s with
  | mk l =>
    show (l.take n).length = min n l.length
    simp

theorem string_ne_empty (s : String) (h : 0 < s.length) : s ≠ "" := by
  intro he
  subst he
  exact absurd h (by decide)

theorem firstTruthy_ne_empty (l : List (Option String)) (s : String)
    (h : firstTruthy l = some s) : s ≠ "" := by
  induction l with
  | nil => simp [firstTruthy] at h
  | cons o rest ih =>
    cases o with
    | none =>
      simp [firstTruthy, truthy] at h
      exact ih h
    | some t =>
      by_cases ht : t = ""
      · subst ht
        simp [firstTruthy, truthy] at h
        exact ih h
      · simp [firstTruthy, truthy, ht] at h
        subst h
        exact ht

theorem dictGet_mem (d : Dict) (k v : String) (h : dictGet d k = some v) :
    (k, v) ∈ d := by
  induction d with
  | nil => simp [dictGet] at h
  | cons kv rest ih =>
    obtain ⟨k0, v0⟩ := kv
    simp only [dictGet] at h
    by_cases hk : k = k0
    · rw [if_pos hk] at h
      injection h with h2
      subst hk
      subst h2
      exact List.mem_cons_self _ _
    · rw [if_neg hk] at h
      exact List.mem_cons_of_mem _ (ih h)

theorem choose_player_name_ne_empty (p : PlayerRecord) (m : Dict)
    (hm : ∀ kv ∈ m, Prod.snd kv ≠ "") : choose_player_name p m ≠ "" := by
  unfold choose_player_name
  cases hf : firstTruthy (localNameFields p) with
  | some s => exact firstTruthy_ne_empty _ _ hf
  | none =>
    by_cases hs : (pyOr p.steamId p.steam_id).getD "" = ""
    · rw [if_neg (by simp [hs])]
      by_cases hu : p.userId.isSome = true
      · rw [if_pos hu]
        apply string_ne_empty
        rw [strLen_append]
        have h1 : ("#" : String).length = 1 := rfl
        omega
      · rw [if_neg hu]
        decide
    · rw [if_pos hs]
      cases hg : dictGet m ((pyOr p.steamId p.steam_id).getD "") with
      | some n => exact hm _ (dictGet_mem _ _ _ hg)
      | none =>
        apply string_ne_empty
        rw [strLen_append]
        have h1 : ("steam:" : String).length = 6 := rfl
        omega

theorem insFold_values_ne (resp : List (String × String)) :
    ∀ d : Dict, (∀ kv ∈ d, Prod.snd kv ≠ "") →
      ∀ kv ∈ resp.foldl insPair d, Prod.snd kv ≠ "" := by
  induction resp with
  | nil => intro d hd; simpa using hd
  | cons pr resp ih =>
    intro d hd
    rw [List.foldl_cons]
    apply ih
    intro kv hkv
    unfold insPair at hkv
    split at hkv
    · next hc =>
      rcases List.mem_cons.mp hkv with h | h
      · subst h; exact hc.2
      · exact hd _ h
    · exact hd _ hkv

theorem resolve_values_ne_empty (key : Option String)
    (net : List String → Option (List (String × String))) (ids : List String) :
    ∀ kv ∈ (resolve_steam_names key net ids).1, Prod.snd kv ≠ "" := by
  unfold resolve_steam_names
  split
  · simp
  · have main : ∀ (cs : List (List String)) (acc : Dict × List (List String)),
        (∀ kv ∈ acc.1, Prod.snd kv ≠ "") →
        ∀ kv ∈ (cs.foldl (procChunk net) acc).1, Prod.snd kv ≠ "" := by
      intro cs
      induction cs with
      | nil => intro acc hacc; simpa using hacc
      | cons c cs ih =>
        intro acc hacc
        rw [List.foldl_cons]
        apply ih
        unfold procChunk
        cases hn : net c with
        | none => simpa using hacc
        | some resp => exact insFold_values_ne resp acc.1 hacc
    exact main _ ([], []) (by simp)

/-! ### Claim theorems -/

/-- Claim C4: the display-name selection of `choose_player_name` follows the
specified precedence exactly: first present non-empty local name field;
else the name-map entry of the carried identifier; else `steam:` plus the
identifier's last 8 characters; else `#` plus the numeric in-game id; else
`Unknown`. Stated as equality with `selectName_spec`, the rendering of the
spec's five rules. -/
theorem name_precedence_refines_spec (p : PlayerRecord) (names : Dict) :
    choose_player_name p names = selectName_spec p names := by
  unfold choose_player_name selectName_spec record_steam_id
  cases firstTruthy (localNameFields p) with
  | some s => rfl
  | none =>
    cases ho : pyOr p.steamId p.steam_id with
    | none => simp [truthy]
    | some s =>
      by_cases hs : s = ""
      · subst hs; simp [truthy]
      · simp [truthy, hs]

/-- Claim C5: on every player record, name selection over any name map the
resolver can produce terminates (it is a total function), returns a
non-empty string, and is deterministic: equal inputs give equal output. -/
theorem selectName_total_deterministic (p : PlayerRecord) (key : Option String)
    (net : List String → Option (List (String × String))) (ids : List String) :
    choose_player_name p (resolve_steam_names key net ids).1 ≠ "" ∧
    choose_player_name p (resolve_steam_names key net ids).1 =
      choose_player_name p (resolve_steam_names key net ids).1 :=
  ⟨choose_player_name_ne_empty p _ (resolve_values_ne_empty key net ids), rfl⟩

/-- Claim C8 (counterexample): two packing runs over the identical empty
snapshot list and empty name map do not produce byte-identical embeds,
because the embed records the current time of each run. -/
theorem packing_idempotence_counterexample :
    make_one_big_embed 0 [] [] ≠ make_one_big_embed 1 [] [] := by decide

/-- Claim C8 (amended): given an identical snapshot list and identical name
map, two packing runs produce identical title, description, fields and
footer; only the embedded run timestamp differs, so the output is
byte-identical exactly when the timestamp input is fixed. -/
theorem packing_idempotence_amended (t1 t2 : Nat) (data : List ServerEntry)
    (m : Dict) :
    (make_one_big_embed t1 data m).title = (make_one_big_embed t2 data m).title ∧
    (make_one_big_embed t1 data m).description =
      (make_one_big_embed t2 data m).description ∧
    (make_one_big_embed t1 data m).fields = (make_one_big_embed t2 data m).fields ∧
    (make_one_big_embed t1 data m).footer = (make_one_big_embed t2 data m).footer :=
  ⟨rfl, rfl, rfl, rfl⟩

theorem packFold_counts (m : Dict) (data : List ServerEntry) :
    ∀ st : PackState,
      (data.foldl (packStep m) st).1.length + (data.foldl (packStep m) st).2.2 =
        st.1.length + st.2.2 + data.length := by
  induction data with
  | nil => intro st; simp
  | cons e data ih =>
    intro st
    rw [List.foldl_cons, ih]
    unfold packStep
    split
    · simp
      omega
    · simp
      omega

theorem packFold_total_le (m : Dict) (data : List ServerEntry) :
    ∀ st : PackState, st.2.1 ≤ EMBED_TOTAL_MAX - 10 →
      (data.foldl (packStep m) st).2.1 ≤ EMBED_TOTAL_MAX - 10 := by
  induction data with
  | nil => intro st h; simpa using h
  | cons e data ih =>
    intro st h
    rw [List.foldl_cons]
    apply ih
    unfold packStep
    split
    · next hc => simpa using h
    · next hc =>
      simp only [EMBED_TOTAL_MAX] at *
      simp
      omega

theorem packFold_headers (m : Dict) (data : List ServerEntry) :
    ∀ st : PackState, (∀ f ∈ st.1, f.name.length ≤ 256) →
      ∀ f ∈ (data.foldl (packStep m) st).1, f.name.length ≤ 256 := by
  induction data with
  | nil => intro st h; simpa using h
  | cons e data ih =>
    intro st h
    rw [List.foldl_cons]
    apply ih
    unfold packStep
    split
    · simpa using h
    · intro f hf
      simp only at hf
      rcases List.mem_append.mp hf with h2 | h2
      · exact h f h2
      · rcases List.mem_singleton.mp h2 with rfl
        simp only [strTake_length]
        omega

theorem emittedSum_append (a b : List EmbedField) :
    emittedSum (a ++ b) = emittedSum a + emittedSum b := by
  simp [emittedSum]

theorem packFold_emitted (m : Dict) (data : List ServerEntry) :
    ∀ st : PackState, packInit + emittedSum st.1 ≤ st.2.1 →
      packInit + emittedSum (data.foldl (packStep m) st).1 ≤
        (data.foldl (packStep m) st).2.1 := by
  induction data with
  | nil => intro st h; simpa using h
  | cons e data ih =>
    intro st h
    rw [List.foldl_cons]
    apply ih
    unfold packStep
    split
    · simpa using h
    · have hmin : (strTake (serverName e) 256).length ≤ (serverName e).length := by
        rw [strTake_length]
        exact Nat.min_le_right _ _
      have hsing : emittedSum
          [(⟨strTake (serverName e) 256, serverFieldValue e m⟩ : EmbedField)] =
          (strTake (serverName e) 256).length + (serverFieldValue e m).length := by
        simp [emittedSum]
      show packInit +
          emittedSum (st.1 ++ [⟨strTake (serverName e) 256, serverFieldValue e m⟩]) ≤
          st.2.1 + (serverName e).length + (serverFieldValue e m).length
      rw [emittedSum_append, hsing]
      omega

/-- Claim C10: every field of the emitted document stores a header cut to
at most 256 characters, while the packing pass charges the full
untruncated server-name length to the running total, so the tracked total
over-counts the emitted document: title plus description plus the emitted
field sizes never exceeds the tracked `total_chars`. -/
theorem header_truncation_overcount (t : Nat) (m : Dict)
    (data : List ServerEntry) :
    (∀ f ∈ (make_one_big_embed t data m).fields, f.name.length ≤ 256) ∧
    EMBED_TITLE.length + EMBED_DESCRIPTION.length +
        emittedSum (packAll m data).1 ≤ (packAll m data).2.1 := by
  constructor
  · intro f hf
    simp only [make_one_big_embed] at hf
    rcases List.mem_append.mp hf with h2 | h2
    · exact packFold_headers m data ([], packInit, 0) (by simp) f h2
    · split at h2
      · rcases List.mem_singleton.mp h2 with rfl
        show ("Notice" : String).length ≤ 256
        decide
      · simp at h2
  · exact packFold_emitted m data ([], packInit, 0) (by simp [emittedSum])

/-- Claim C3 (amended): packing processes every block in fetch order,
either including it or counting it as omitted (included plus omitted
equals the input length), keeps the running total of included blocks at
most 5990 (the cap minus the fixed padding), and appends exactly one
notice field stating the omitted count when that count is non-zero.
The notice itself is appended without any capacity check, so the finished
document may exceed the 6000 cap (see the counterexample); the oversized
document is then caught by the command's final guard. -/
theorem packing_skip_notice_amended (t : Nat) (m : Dict)
    (data : List ServerEntry) :
    (packAll m data).1.length + (packAll m data).2.2 = data.length ∧
    (packAll m data).2.1 ≤ EMBED_TOTAL_MAX - 10 ∧
    (make_one_big_embed t data m).fields =
      (packAll m data).1 ++
        (if (packAll m data).2.2 ≠ 0 then [noticeField (packAll m data).2.2]
        else []) := by
  refine ⟨?_, ?_, rfl⟩
  · have h := packFold_counts m data ([], packInit, 0)
    simpa [packAll] using h
  · exact packFold_total_le m data ([], packInit, 0) (by decide)

set_option maxRecDepth 100000 in
/-- Claim C3 (counterexample): on `overflowData` six blocks are included,
reaching running total 5988, the seventh is skipped, and the appended
notice lifts the total emitted size of the document to 6025, above the
6000 cap the claim asserts for the document. -/
theorem packing_total_counterexample :
    EMBED_TOTAL_MAX < approxLen (make_one_big_embed 0 overflowData []) := by
  decide

set_option maxRecDepth 100000 in
/-- Claim C9 (counterexample): on `footerData` exactly six server blocks
are included, yet the footer reports `showing 7` because the synthetic
notice field is counted among the shown blocks. -/
theorem footer_count_counterexample :
    (make_one_big_embed 0 footerData []).footer =
      "Server list • 7 total (showing 7)." ∧
    (packAll [] footerData).1.length = 6 := by
  constructor
  · decide
  · decide

/-- Claim C9 (amended): the footer states the total number of servers in
the fetched input and the total number of fields of the document, which
includes the synthetic notice field when any server was omitted; only when
no notice is appended does that number equal the count of included server
blocks. -/
theorem footer_count_amended (t : Nat) (m : Dict) (data : List ServerEntry) :
    (make_one_big_embed t data m).footer =
      "Server list • " ++ toString data.length ++ " total (showing " ++
        toString
          ((packAll m data).1.length +
            if (packAll m data).2.2 ≠ 0 then 1 else 0) ++ ")." := by
  have h : ((packAll m data).1 ++
      (if (packAll m data).2.2 ≠ 0 then [noticeField (packAll m data).2.2]
      else [])).length =
      (packAll m data).1.length +
        (if (packAll m data).2.2 ≠ 0 then 1 else 0) := by
    split <;> simp
  simp only [make_one_big_embed, h]

set_option maxRecDepth 100000 in
/-- Claim C2 (counterexample): a server entry with zero players and a
1200-character version string produces a block body of length 1223, above
the per-block cap of 1024: the zero-player branch bypasses the cap. -/
theorem block_cap_counterexample :
    FIELD_VALUE_MAX < (serverFieldValue longVersionEntry []).length := by
  decide

/-- Claim C2 (amended): for every server entry with a non-empty player
list the block body never exceeds the per-block cap of 1024, and whenever
the joined player lines exceed 1024 the body is the join truncated to
1024 - 30 characters plus the appended truncation marker. For a
zero-player entry the body is the single summary line, which is not
capped and can exceed 1024 for a long version string. -/
theorem block_cap_amended (e : ServerEntry) (m : Dict)
    (hp : serverPlayers e ≠ []) :
    (serverFieldValue e m).length ≤ FIELD_VALUE_MAX ∧
    (FIELD_VALUE_MAX < (serverJoined e m).length →
      serverFieldValue e m =
        strTake (serverJoined e m) (FIELD_VALUE_MAX - 30) ++
          "\n... (truncated)") := by
  constructor
  · unfold serverFieldValue
    rw [if_neg hp]
    by_cases hj : FIELD_VALUE_MAX < (serverJoined e m).length
    · rw [if_pos hj, strLen_append, strTake_length]
      have hmk : ("\n... (truncated)" : String).length = 16 := rfl
      rw [hmk]
      simp only [FIELD_VALUE_MAX] at hj ⊢
      omega
    · rw [if_neg hj]
      omega
  · intro hj
    unfold serverFieldValue
    rw [if_neg hp, if_pos hj]

set_option maxRecDepth 100000 in
/-- Witness for the amended C2 at concrete inputs: a one-player server
stays under the cap, and a server whose joined lines exceed the cap gets
the truncated body. -/
theorem block_cap_amended_witness :
    (serverFieldValue onePlayerEntry []).length ≤ FIELD_VALUE_MAX ∧
    serverFieldValue bigPlayerEntry [] =
      strTake (serverJoined bigPlayerEntry []) (FIELD_VALUE_MAX - 30) ++
        "\n... (truncated)" :=
  ⟨(block_cap_amended onePlayerEntry [] (by decide)).1,
   (block_cap_amended bigPlayerEntry [] (by decide)).2 (by decide)⟩

/-- Claim C1: the command never sends a document whose total size (title
length plus description length plus the sum of stored field name and
value lengths) exceeds the 6000 cap; when the built document exceeds the
cap the command sends the single too-large fallback instead. -/
theorem total_cap_enforced (t : Nat) (key : Option String)
    (net : List String → Option (List (String × String)))
    (data : List ServerEntry) :
    sentSize (servers_command t key net data) ≤ EMBED_TOTAL_MAX ∧
    (data ≠ [] →
      EMBED_TOTAL_MAX <
        approxLen (make_one_big_embed t data (steamMapOf key net data)) →
      servers_command t key net data = Reply.tooLarge) := by
  constructor
  · unfold servers_command
    split
    · simp [sentSize]
    · split
      · simp [sentSize]
      · next h2 =>
        simp only [sentSize]
        omega
  · intro hne hbig
    unfold servers_command
    rw [if_neg hne, if_pos hbig]

set_option maxRecDepth 100000 in
/-- Witness for C1 at a concrete input: on `overflowData` the built
document exceeds the cap and the command answers with the fallback, so
nothing over the cap is sent. -/
theorem total_cap_enforced_witness :
    servers_command 0 none netNone overflowData = Reply.tooLarge ∧
    sentSize (servers_command 0 none netNone overflowData) ≤ EMBED_TOTAL_MAX :=
  ⟨(total_cap_enforced 0 none netNone overflowData).2 (by decide) (by decide),
   (total_cap_enforced 0 none netNone overflowData).1⟩

theorem chunksGo_flatten (fuel : Nat) :
    ∀ l : List String, l.length ≤ fuel → (chunksGo fuel l).flatten = l := by
  induction fuel with
  | zero =>
    intro l h
    cases l with
    | nil => simp [chunksGo]
    | cons x xs => simp at h
  | succ fuel ih =>
    intro l h
    cases l with
    | nil => simp [chunksGo]
    | cons x xs =>
      simp only [chunksGo, List.flatten_cons]
      rw [ih]
      · exact List.take_append_drop 100 (x :: xs)
      · simp only [List.length_drop, List.length_cons] at h ⊢
        omega

theorem chunksOf100_flatten (l : List String) : (chunksOf100 l).flatten = l :=
  chunksGo_flatten l.length l le_rfl

theorem chunksGo_sizes (fuel : Nat) :
    ∀ l c : List String, c ∈ chunksGo fuel l → c.length ≤ 100 := by
  induction fuel with
  | zero =>
    intro l c h
    cases l <;> simp [chunksGo] at h
  | succ fuel ih =>
    intro l c h
    cases l with
    | nil => simp [chunksGo] at h
    | cons x xs =>
      simp only [chunksGo] at h
      rcases List.mem_cons.mp h with h | h
      · subst h
        rw [List.length_take]
        omega
      · exact ih _ _ h

theorem countP_one_of_count_flatten (s : String) :
    ∀ L : List (List String), (L.flatten).count s = 1 →
      L.countP (fun c => decide (s ∈ c)) = 1 := by
  intro L
  induction L with
  | nil => intro h; simp at h
  | cons c L ih =>
    intro h
    rw [List.flatten_cons, List.count_append] at h
    rw [List.countP_cons]
    by_cases hc : s ∈ c
    · have h1 : c.count s ≠ 0 := fun h0 => (List.count_eq_zero.mp h0) hc
      have h2 : (L.flatten).count s = 0 := by omega
      have h3 : s ∉ L.flatten := List.count_eq_zero.mp h2
      have h4 : L.countP (fun c2 => decide (s ∈ c2)) = 0 := by
        rw [List.countP_eq_zero]
        intro c2 hc2
        simp only [decide_eq_true_eq]
        intro hmem
        exact h3 (List.mem_flatten.mpr ⟨c2, hc2, hmem⟩)
      simp [hc, h4]
    · have h0 : c.count s = 0 := List.count_eq_zero.mpr hc
      have h5 : (L.flatten).count s = 1 := by omega
      simp [hc, ih h5]

theorem procChunk_requests (net : List String → Option (List (String × String))) :
    ∀ (cs : List (List String)) (acc : Dict × List (List String)),
      (cs.foldl (procChunk net) acc).2 = acc.2 ++ cs := by
  intro cs
  induction cs with
  | nil => intro acc; simp
  | cons c cs ih =>
    intro acc
    rw [List.foldl_cons, ih]
    have h : (procChunk net acc c).2 = acc.2 ++ [c] := by
      unfold procChunk
      cases net c <;> simp
    rw [h]
    simp

theorem insFold_origin (resp : List (String × String)) :
    ∀ (d : Dict) (k v : String), dictGet (resp.foldl insPair d) k = some v →
      dictGet d k = some v ∨ ((k, v) ∈ resp ∧ k ≠ "" ∧ v ≠ "") := by
  induction resp with
  | nil => intro d k v h; exact Or.inl h
  | cons pr resp ih =>
    intro d k v h
    rw [List.foldl_cons] at h
    rcases ih _ _ _ h with h2 | h2
    · obtain ⟨a, b⟩ := pr
      unfold insPair at h2
      split at h2
      · next hc =>
        simp only [dictGet] at h2
        by_cases hk : k = a
        · rw [if_pos hk] at h2
          injection h2 with hv
          subst hk
          subst hv
          exact Or.inr ⟨List.mem_cons_self _ _, hc.1, hc.2⟩
        · rw [if_neg hk] at h2
          exact Or.inl h2
      · exact Or.inl h2
    · exact Or.inr ⟨List.mem_cons_of_mem _ h2.1, h2.2⟩

theorem resolveFold_origin (net : List String → Option (List (String × String))) :
    ∀ (cs : List (List String)) (acc : Dict × List (List String)) (k v : String),
      dictGet (cs.foldl (procChunk net) acc).1 k = some v →
      dictGet acc.1 k = some v ∨
        ∃ c ∈ cs, ∃ resp, net c = some resp ∧ (k, v) ∈ resp ∧ k ≠ "" ∧ v ≠ "" := by
  intro cs
  induction cs with
  | nil => intro acc k v h; exact Or.inl h
  | cons c cs ih =>
    intro acc k v h
    rw [List.foldl_cons] at h
    rcases ih _ _ _ h with h2 | h2
    · unfold procChunk at h2
      cases hn : net c with
      | none =>
        rw [hn] at h2
        exact Or.inl h2
      | some resp =>
        rw [hn] at h2
        simp only at h2
        rcases insFold_origin resp acc.1 k v h2 with h3 | h3
        · exact Or.inl h3
        · exact Or.inr ⟨c, List.mem_cons_self _ _, resp, hn, h3⟩
    · obtain ⟨c2, hc2, rest⟩ := h2
      exact Or.inr ⟨c2, List.mem_cons_of_mem _ hc2, rest⟩

/-- Claim C6: the collected identifier set holds each carried identifier
exactly once even when several players share it (it is duplicate-free and
covers exactly the identifiers the records carry), and the batches of at
most 100 issued by the resolver partition it: their concatenation is the
set itself and each identifier lies in exactly one issued request. -/
theorem identifier_dedup_partition (data : List ServerEntry)
    (key : Option String)
    (net : List String → Option (List (String × String)))
    (hk : truthy key = true) (hne : collect_steam_ids data ≠ []) :
    (collect_steam_ids data).Nodup ∧
    (∀ s : String, s ∈ collect_steam_ids data ↔
      ∃ e ∈ data, ∃ p ∈ serverPlayers e, record_steam_id p = some s) ∧
    (resolve_steam_names key net (collect_steam_ids data)).2 =
      chunksOf100 (collect_steam_ids data) ∧
    (∀ c ∈ chunksOf100 (collect_steam_ids data), c.length ≤ 100) ∧
    (chunksOf100 (collect_steam_ids data)).flatten = collect_steam_ids data ∧
    (∀ s ∈ collect_steam_ids data,
      (chunksOf100 (collect_steam_ids data)).countP
        (fun c => decide (s ∈ c)) = 1) := by
  refine ⟨List.nodup_dedup _, ?_, ?_, ?_, chunksOf100_flatten _, ?_⟩
  · intro s
    simp only [collect_steam_ids, List.mem_dedup, List.mem_flatten,
      List.mem_map]
    constructor
    · rintro ⟨l, ⟨e, he, rfl⟩, hs⟩
      rcases List.mem_filterMap.mp hs with ⟨p, hp, hps⟩
      exact ⟨e, he, p, hp, hps⟩
    · rintro ⟨e, he, p, hp, hps⟩
      exact ⟨_, ⟨e, he, rfl⟩, List.mem_filterMap.mpr ⟨p, hp, hps⟩⟩
  · unfold resolve_steam_names
    rw [if_neg (by simp [hk, hne])]
    rw [procChunk_requests]
    simp
  · exact fun c hc => chunksGo_sizes _ _ c hc
  · intro s hs
    apply countP_one_of_count_flatten
    rw [chunksOf100_flatten]
    exact List.count_eq_one_of_mem (List.nodup_dedup _) hs

/-- Witness for C6 at a concrete input: one server whose three players
carry identifiers `aaaa`, `aaaa`, `b`. -/
theorem identifier_dedup_partition_witness :
    (collect_steam_ids dedupData).Nodup ∧
    (resolve_steam_names (some "k") netNone (collect_steam_ids dedupData)).2 =
      chunksOf100 (collect_steam_ids dedupData) :=
  ⟨(identifier_dedup_partition dedupData (some "k") netNone (by decide)
      (by decide)).1,
   (identifier_dedup_partition dedupData (some "k") netNone (by decide)
      (by decide)).2.2.1⟩

/-- Claim C7: with no credential or an empty identifier set the resolver
returns the empty mapping and issues no request; otherwise it issues
every batch regardless of failures (a failed batch neither raises nor
aborts the pass), and every resolved entry originates from a successful
batch response, so the identifiers of a failed batch simply stay
unresolved. -/
theorem resolver_degradation (key : Option String)
    (net : List String → Option (List (String × String)))
    (ids : List String) :
    ((truthy key = false ∨ ids = []) →
      resolve_steam_names key net ids = ([], [])) ∧
    (truthy key = true → ids ≠ [] →
      (resolve_steam_names key net ids).2 = chunksOf100 ids) ∧
    (∀ sid pname,
      dictGet (resolve_steam_names key net ids).1 sid = some pname →
      ∃ c ∈ chunksOf100 ids, ∃ resp,
        net c = some resp ∧ (sid, pname) ∈ resp ∧ sid ≠ "" ∧ pname ≠ "") := by
  refine ⟨?_, ?_, ?_⟩
  · intro h
    unfold resolve_steam_names
    rw [if_pos h]
  · intro hk hne
    unfold resolve_steam_names
    rw [if_neg (by simp [hk, hne])]
    rw [procChunk_requests]
    simp
  · intro sid pname h
    unfold resolve_steam_names at h
    split at h
    · simp [dictGet] at h
    · rcases resolveFold_origin net (chunksOf100 ids) ([], []) sid pname h with
        h2 | h2
      · simp [dictGet] at h2
      · exact h2

/-- Witness for C7 at concrete inputs: a missing credential yields the
empty mapping with no request; with a credential, a failing network still
sees every batch issued. -/
theorem resolver_degradation_witness :
    resolve_steam_names none netNone ["a"] = ([], []) ∧
    (resolve_steam_names (some "k") netNone ["a"]).2 = chunksOf100 ["a"] :=
  ⟨(resolver_degradation none netNone ["a"]).1 (Or.inl (by decide)),
   (resolver_degradation (some "k") netNone ["a"]).2.1 (by decide) (by decide)⟩

end EFPS
